import Mathlib

/-!
Verification of the CCF core (ccf_core Python package) against its design
specification.  The Python code is shallowly embedded: Python floats are
modelled as exact rationals (ℚ), Python ints as ℤ/ℕ, dictionaries as
association lists, and fallible paths as Option/Except values.
-/

/-! ## Coherence accumulator (`coherence_field_py._Accumulator`) -/

/-- One per-context coherence accumulator: learned trust, protective floor,
and the number of recorded interactions.  Mirrors
`_Accumulator.__slots__ = ("coherence", "earned_floor", "interaction_count")`. -/
structure Accumulator where
  coherence : ℚ
  earned_floor : ℚ
  interaction_count : ℤ
deriving DecidableEq, Repr

/-- A fresh accumulator: all fields zero (`_Accumulator()` defaults). -/
def Accumulator.init : Accumulator := ⟨0, 0, 0⟩

/-- `_Accumulator.positive_interaction`: `gain = curiosity * (12/100 : ℚ)`;
`coherence = min(1.0, coherence + gain)`;
`earned_floor = min(coherence, earned_floor + gain * (3/10 : ℚ))`;
`interaction_count += 1`. -/
def Accumulator.positive_interaction (a : Accumulator) (curiosity : ℚ) : Accumulator :=
  let gain := curiosity * (12/100 : ℚ)
  let c := min 1 (a.coherence + gain)
  { coherence := c
    earned_floor := min c (a.earned_floor + gain * (3/10 : ℚ))
    interaction_count := a.interaction_count + 1 }

/-- `_Accumulator.negative_interaction`: `decay = (15/100 : ℚ) * (1.0 - recovery)`;
`coherence = max(earned_floor, coherence - decay)`; `interaction_count += 1`. -/
def Accumulator.negative_interaction (a : Accumulator) (recovery : ℚ) : Accumulator :=
  let decay := (15/100 : ℚ) * (1 - recovery)
  { coherence := max a.earned_floor (a.coherence - decay)
    earned_floor := a.earned_floor
    interaction_count := a.interaction_count + 1 }

/-- `_Accumulator.effective_coherence`: below 0.3 learned coherence the
minimum gate `min(instant, ctx)` applies, otherwise the weighted blend
`0.3*instant + 0.7*ctx`. -/
def Accumulator.effective_coherence (a : Accumulator) (instant : ℚ) : ℚ :=
  let ctx := a.coherence
  if ctx < (3/10 : ℚ) then min instant ctx
  else (3/10 : ℚ) * instant + (7/10 : ℚ) * ctx

/-- One recorded interaction event with its personality-scaled parameter. -/
inductive Interaction where
  | positive (curiosity : ℚ)
  | negative (recovery : ℚ)
deriving DecidableEq, Repr

/-- Apply one interaction event to an accumulator. -/
def Accumulator.apply (a : Accumulator) : Interaction → Accumulator
  | .positive c => a.positive_interaction c
  | .negative r => a.negative_interaction r

/-- Apply a whole sequence of interaction events, oldest first. -/
def Accumulator.applyAll (a : Accumulator) (s : List Interaction) : Accumulator :=
  s.foldl Accumulator.apply a

/-- The accumulator state invariant: `0 ≤ earned_floor ≤ coherence ≤ 1`. -/
def Accumulator.Inv (a : Accumulator) : Prop :=
  0 ≤ a.earned_floor ∧ a.earned_floor ≤ a.coherence ∧ a.coherence ≤ 1

instance (a : Accumulator) : Decidable a.Inv := by
  unfold Accumulator.Inv; infer_instance

/-- An interaction parameter is valid when it lies in `[0, 1]`. -/
def Interaction.Valid : Interaction → Prop
  | .positive c => 0 ≤ c ∧ c ≤ 1
  | .negative r => 0 ≤ r ∧ r ≤ 1

instance (i : Interaction) : Decidable i.Valid := by
  cases i <;> (unfold Interaction.Valid; infer_instance)

/-- A sequence of interactions is valid when every parameter is in `[0, 1]`. -/
def ValidSeq (s : List Interaction) : Prop := ∀ i ∈ s, i.Valid

instance (s : List Interaction) : Decidable (ValidSeq s) := by
  unfold ValidSeq; infer_instance

/-! ## Phase classifier (`social_phase.py`) -/

/-- The five relational phases of `SocialPhase`. -/
inductive SocialPhase where
  | ShyObserver
  | BuildingTrust
  | QuietlyBeloved
  | ProtectiveGuardian
  | StartledRetreat
deriving DecidableEq, Repr

/-- `classify_phase(effective_coh, instant, prev_phase)`: the two acute
overrides first, then Schmitt-trigger hysteresis keyed on the previous
phase.  Thresholds are the module constants of `social_phase.py`
(0.35, 0.28, 0.55, 0.45, 0.30, 0.20) as exact rationals. -/
def classify_phase (effective_coh instant : ℚ) (prev_phase : SocialPhase) :
    SocialPhase :=
  if effective_coh ≥ (55/100 : ℚ) ∧ instant < (30/100 : ℚ) then
    .ProtectiveGuardian
  else if effective_coh < (35/100 : ℚ) ∧ instant < (20/100 : ℚ) then
    .StartledRetreat
  else
    match prev_phase with
    | .ShyObserver =>
        if effective_coh ≥ (35/100 : ℚ) then .BuildingTrust else .ShyObserver
    | .BuildingTrust =>
        if effective_coh < (28/100 : ℚ) then .ShyObserver
        else if effective_coh ≥ (55/100 : ℚ) then .QuietlyBeloved
        else .BuildingTrust
    | .QuietlyBeloved =>
        if effective_coh < (45/100 : ℚ) then .BuildingTrust
        else .QuietlyBeloved
    | _ =>
        if effective_coh ≥ (55/100 : ℚ) then .QuietlyBeloved
        else if effective_coh ≥ (35/100 : ℚ) then .BuildingTrust
        else .ShyObserver

/-- Fold one tick of the classifier over a list of
(effective coherence, instant) pairs, oldest first. -/
def classifySeq (start : SocialPhase) (ticks : List (ℚ × ℚ)) : SocialPhase :=
  ticks.foldl (fun ph t => classify_phase t.1 t.2 ph) start

/-! ## Context fingerprint (`text_context_key.py`) -/

/-- One FNV-1a round: xor in a byte, multiply by the FNV prime 16777619,
truncate to 32 bits (`h = (h * _FNV_PRIME) & 0xFFFFFFFF`). -/
def fnvRound (h byte : ℕ) : ℕ := ((h ^^^ byte) * 16777619) % 2 ^ 32

/-- The little-endian 4-byte encoding of a u32 value
(`(v >> (byte_pos * 8)) & 0xFF` for `byte_pos = 0, 1, 2, 3`). -/
def bytesLE4 (v : ℕ) : List ℕ :=
  [v % 256, v / 2 ^ 8 % 256, v / 2 ^ 16 % 256, v / 2 ^ 24 % 256]

/-- `_fnv1a(*values)`: FNV-1a over the little-endian 4-byte encodings of a
sequence of u32 values, starting from offset basis 2166136261. -/
def fnv1a (values : List ℕ) : ℕ :=
  values.foldl (fun h v => (bytesLE4 v).foldl fnvRound h) 2166136261

/-- The five bounded integer dimensions of `TextContextKey`, in
field-declaration order. -/
structure TextContextKey where
  topic_domain : ℕ
  conversation_depth : ℕ
  emotional_register : ℕ
  time_of_day : ℕ
  session_phase : ℕ
deriving DecidableEq, Repr

/-- The `__post_init__` range validation of `TextContextKey`. -/
def TextContextKey.ValidKey (k : TextContextKey) : Prop :=
  k.topic_domain ≤ 63 ∧ k.conversation_depth ≤ 2 ∧
    k.emotional_register ≤ 3 ∧ k.time_of_day ≤ 3 ∧ k.session_phase ≤ 2

instance (k : TextContextKey) : Decidable k.ValidKey := by
  unfold TextContextKey.ValidKey; infer_instance

/-- `TextContextKey.context_hash()`: `_fnv1a` of the five fields in
field-declaration order. -/
def TextContextKey.context_hash (k : TextContextKey) : ℕ :=
  fnv1a [k.topic_domain, k.conversation_depth, k.emotional_register,
    k.time_of_day, k.session_phase]

/-- The hash as the specification words it: 32-bit FNV-1a applied
byte-by-byte over the single flat stream of little-endian 4-byte encodings
of the five fields in field-declaration order. -/
def contextHashSpec (k : TextContextKey) : ℕ :=
  (([k.topic_domain, k.conversation_depth, k.emotional_register,
    k.time_of_day, k.session_phase].map bytesLE4).flatten).foldl fnvRound 2166136261

/-! ## Depth derivation in `TextContextKey.from_text` -/

/-- `ConversationDepth.from_turn_count`: the fixed breakpoints
`turn_count ≤ 3 → shallow (0)`, `turn_count ≤ 15 → moderate (1)`,
else `deep (2)`. -/
def ConversationDepth.from_turn_count (turn_count : ℤ) : ℤ :=
  if turn_count ≤ 3 then 0
  else if turn_count ≤ 15 then 1
  else 2

/-- Python's `str.lower()`, character by character (kernel-reducible form
of `String.toLower`). -/
def pyLower (s : String) : String := String.mk (s.data.map Char.toLower)

/-- `ConversationDepth.from_label`: label lookup after lower-casing;
`none` models the `ValueError` raised for an unknown label. -/
def ConversationDepth.from_label (label : String) : Option ℤ :=
  if pyLower label = "shallow" then some 0
  else if pyLower label = "moderate" then some 1
  else if pyLower label = "deep" then some 2
  else none

/-- The `depth` argument of `TextContextKey.from_text`: a string label, an
int, or any other value (e.g. `None`), which falls through to the
turn-count branch. -/
inductive DepthArg where
  | strArg (s : String)
  | intArg (v : ℤ)
  | otherArg
deriving DecidableEq, Repr

/-- The declared default of the `depth` parameter in `from_text`:
the string literal `"moderate"`. -/
def defaultDepthArg : DepthArg := .strArg "moderate"

/-- The depth-resolution branch of `from_text`: a string goes through
`from_label`, an int is taken as-is, and anything else falls back to
`from_turn_count(turn_count)`. -/
def resolveDepth (depth : DepthArg) (turn_count : ℤ) : Option ℤ :=
  match depth with
  | .strArg s => ConversationDepth.from_label s
  | .intArg v => some v
  | .otherArg => some (ConversationDepth.from_turn_count turn_count)

/-! ## Coherence field (`coherence_field_py.CoherenceFieldPy`)

Python dictionaries are modelled as insertion-ordered association lists
with unique keys; `aupdate` is dict assignment (replace in place, else
append), `alookup` is dict lookup. -/

def alookup {α : Type} : List (ℤ × α) → ℤ → Option α
  | [], _ => none
  | (k, v) :: rest, h => if k = h then some v else alookup rest h

def aupdate {α : Type} : List (ℤ × α) → ℤ → α → List (ℤ × α)
  | [], k, v => [(k, v)]
  | (k0, v0) :: rest, k, v =>
      if k0 = k then (k, v) :: rest else (k0, v0) :: aupdate rest k v

/-- The pure-Python coherence field: personality parameters plus the
per-context-hash accumulator dictionary. -/
structure CoherenceFieldPy where
  curiosity_drive : ℚ
  recovery_rate : ℚ
  accumulators : List (ℤ × Accumulator)

/-- `CoherenceFieldPy._get_or_create`: look the hash up, inserting a fresh
zero accumulator when absent.  Returns the accumulator together with the
(possibly extended) field state. -/
def CoherenceFieldPy.get_or_create (f : CoherenceFieldPy) (context_hash : ℤ) :
    Accumulator × CoherenceFieldPy :=
  match alookup f.accumulators context_hash with
  | some acc => (acc, f)
  | none =>
      (Accumulator.init,
        { f with accumulators :=
            aupdate f.accumulators context_hash Accumulator.init })

/-- `CoherenceFieldPy.positive_interaction`: get-or-create, then mutate the
accumulator with the personality curiosity. -/
def CoherenceFieldPy.positive_interaction (f : CoherenceFieldPy)
    (context_hash : ℤ) : CoherenceFieldPy :=
  let p := f.get_or_create context_hash
  let acc2 := p.1.positive_interaction f.curiosity_drive
  { p.2 with accumulators := aupdate p.2.accumulators context_hash acc2 }

/-- `CoherenceFieldPy.negative_interaction`: get-or-create, then mutate the
accumulator with the personality recovery rate. -/
def CoherenceFieldPy.negative_interaction (f : CoherenceFieldPy)
    (context_hash : ℤ) : CoherenceFieldPy :=
  let p := f.get_or_create context_hash
  let acc2 := p.1.negative_interaction f.recovery_rate
  { p.2 with accumulators := aupdate p.2.accumulators context_hash acc2 }

/-- `CoherenceFieldPy.effective_coherence`: a read.  The method body
performs no assignment, so the embedded method returns the field state it
was called on; for an unseen hash it runs the minimum gate on `ctx = 0.0`
exactly as the source does. -/
def CoherenceFieldPy.effective_coherence (f : CoherenceFieldPy)
    (context_hash : ℤ) (instant : ℚ) : ℚ × CoherenceFieldPy :=
  match alookup f.accumulators context_hash with
  | none =>
      (if (0 : ℚ) < (3/10 : ℚ) then min instant 0
       else (3/10 : ℚ) * instant + (7/10 : ℚ) * 0, f)
  | some acc => (acc.effective_coherence instant, f)

/-- `CoherenceFieldPy.raw_coherence`: a read; `0.0` for an unseen hash. -/
def CoherenceFieldPy.raw_coherence (f : CoherenceFieldPy)
    (context_hash : ℤ) : ℚ × CoherenceFieldPy :=
  match alookup f.accumulators context_hash with
  | none => (0, f)
  | some acc => (acc.coherence, f)

/-- `CoherenceFieldPy.interaction_count`: a read; `0` for an unseen hash. -/
def CoherenceFieldPy.interaction_count (f : CoherenceFieldPy)
    (context_hash : ℤ) : ℤ × CoherenceFieldPy :=
  match alookup f.accumulators context_hash with
  | none => (0, f)
  | some acc => (acc.interaction_count, f)

/-- A concrete empty coherence field used as the C10 witness input. -/
def sampleField : CoherenceFieldPy := ⟨(1/2 : ℚ), (1/2 : ℚ), []⟩

/-! ## Atomic save control flow (`persistence.py`, `CcfPersistence.save`)

The filesystem is modelled as the destination file's content plus the
temporary file's content (`none` = absent).  `save` runs: `mkstemp`, write
the serialized state to the temp file, `os.replace` over the destination;
any exception in the write or the rename is caught, the temp file is
unlinked, and the exception re-raised (`except ... os.unlink ... raise`). -/

structure FSState where
  dest : Option String
  tmp : Option String
deriving DecidableEq, Repr

/-- Single filesystem operations appearing in `CcfPersistence.save`. -/
inductive SaveStep where
  | mkstemp
  | writeTmp (content : String)
  | renameTmpToDest
  | unlinkTmp
deriving DecidableEq, Repr

def applyStep (fs : FSState) : SaveStep → FSState
  | .mkstemp => { fs with tmp := some "" }
  | .writeTmp c => { fs with tmp := some c }
  | .renameTmpToDest =>
      match fs.tmp with
      | some c => { dest := some c, tmp := none }
      | none => fs
  | .unlinkTmp => { fs with tmp := none }

/-- Failure-injection points for `save`: the temp-file write raises, or the
rename raises.  (`mkstemp` failing touches neither file.) -/
inductive SaveFail where
  | noFail
  | atWrite
  | atRename
deriving DecidableEq, Repr

/-- The control flow of `CcfPersistence.save` under failure injection.
Returns the final filesystem state and whether the save succeeded
(`false` = the original exception propagates after cleanup). -/
def saveRun (fs : FSState) (content : String) (fail : SaveFail) :
    FSState × Bool :=
  let fs1 := applyStep fs .mkstemp
  match fail with
  | .atWrite =>
      (applyStep fs1 .unlinkTmp, false)
  | .atRename =>
      let fs2 := applyStep fs1 (.writeTmp content)
      (applyStep fs2 .unlinkTmp, false)
  | .noFail =>
      let fs2 := applyStep fs1 (.writeTmp content)
      (applyStep fs2 .renameTmpToDest, true)

/-! ## JSON persistence (`persistence.py`, save/load data path)

The JSON document is modelled as an inductive tree; the byte-level
`json.dump`/`json.load` round trip is lossless, so `save` produces the
document and `load` consumes one.  Python-specific conversions (`float()`,
`int()`, `str()`, iteration, `>` against an int) are modelled on JSON
values; `float()`/`int()` on strings support the plain decimal forms
(sign, digits, optional fraction) — exponents, inf/nan and underscore
separators do not occur in this code's data and are outside the model. -/

inductive Json where
  | null
  | bool (b : Bool)
  | num (q : ℚ)
  | str (s : String)
  | arr (items : List Json)
  | obj (fields : List (String × Json))

/-- Python dict lookup on a JSON object (keys unique, insertion order). -/
def jlookup : List (String × Json) → String → Option Json
  | [], _ => none
  | (k, v) :: rest, key => if k = key then some v else jlookup rest key

/-- Python `int()` truncation of a float toward zero. -/
def pyTrunc (q : ℚ) : ℤ := if q < 0 then ⌈q⌉ else ⌊q⌋

/-- The numeric value of a non-empty all-digit character run. -/
def digitsVal : List Char → Option ℕ
  | [] => none
  | cs =>
      if cs.all Char.isDigit then
        some (cs.foldl (fun n c => 10 * n + (c.toNat - 48)) 0)
      else none

/-- Python `int(str)`: optional sign followed by digits. -/
def parsePyInt (s : String) : Option ℤ :=
  match s.trim.data with
  | '-' :: cs => (digitsVal cs).map (fun n => -(n : ℤ))
  | '+' :: cs => (digitsVal cs).map (fun n => (n : ℤ))
  | cs => (digitsVal cs).map (fun n => (n : ℤ))

/-- Python `float(str)` on plain decimal forms:
`[sign] digits [. digits]` with at least one digit overall. -/
def parsePyFloatCore (cs : List Char) : Option ℚ :=
  match cs.splitOn '.' with
  | [ip] => (digitsVal ip).map (fun n => (n : ℚ))
  | [ip, fp] =>
      if ip.isEmpty ∧ fp.isEmpty then none
      else
        match (if ip.isEmpty then some 0 else digitsVal ip),
            (if fp.isEmpty then some 0 else digitsVal fp) with
        | some i, some f => some ((i : ℚ) + (f : ℚ) / (10 : ℚ) ^ fp.length)
        | _, _ => none
  | _ => none

def parsePyFloat (s : String) : Option ℚ :=
  match s.trim.data with
  | '-' :: cs => (parsePyFloatCore cs).map (fun q => -q)
  | '+' :: cs => parsePyFloatCore cs
  | cs => parsePyFloatCore cs

/-- Python `float()` applied to a JSON value: numbers as-is, bools as 0/1,
numeric strings parsed; everything else raises (`none`). -/
def pyFloat : Json → Option ℚ
  | .num q => some q
  | .bool b => some (if b then 1 else 0)
  | .str s => parsePyFloat s
  | _ => none

/-- Python `int()` applied to a JSON value: floats truncate toward zero,
bools become 0/1, integer strings parsed; everything else raises. -/
def pyInt : Json → Option ℤ
  | .num q => some (pyTrunc q)
  | .bool b => some (if b then 1 else 0)
  | .str s => parsePyInt s
  | _ => none

mutual

/-- Python `repr()` of a JSON value (used for values nested in
containers).  Rendering detail of numbers differs from CPython's float
repr; no property below depends on it. -/
def pyRepr : Json → String
  | .null => "None"
  | .bool true => "True"
  | .bool false => "False"
  | .num q => toString q
  | .str s => "\x27" ++ s ++ "\x27"
  | .arr items => "[" ++ pyReprList items ++ "]"
  | .obj kvs => "\x7b" ++ pyReprObj kvs ++ "\x7d"

def pyReprList : List Json → String
  | [] => ""
  | [j] => pyRepr j
  | j :: rest => pyRepr j ++ ", " ++ pyReprList rest

def pyReprObj : List (String × Json) → String
  | [] => ""
  | [(k, v)] => "\x27" ++ k ++ "\x27: " ++ pyRepr v
  | (k, v) :: rest => "\x27" ++ k ++ "\x27: " ++ pyRepr v ++ ", " ++ pyReprObj rest

end


/-- Python `str()`: identity on strings, `repr` otherwise; never fails. -/
def pyStr : Json → String
  | .str s => s
  | other => pyRepr other

/-- The two personality parameters persisted with the population. -/
structure Personality where
  curiosity : ℚ
  recovery : ℚ
deriving DecidableEq, Repr

/-- One persisted accumulator record
(`ctx_hash` is the association key; the rest are the record fields). -/
structure AccRecord where
  coherence : ℚ
  earned_floor : ℚ
  interaction_count : ℤ
  last_phase : String
deriving DecidableEq, Repr

/-- The JSON record `save` writes for one `(ctx_hash, accumulator)` pair. -/
def recordJson (p : ℤ × AccRecord) : Json :=
  Json.obj [
    ("ctx_hash", Json.num (p.1 : ℚ)),
    ("coherence", Json.num p.2.coherence),
    ("earned_floor", Json.num p.2.earned_floor),
    ("interaction_count", Json.num (p.2.interaction_count : ℚ)),
    ("last_phase", Json.str p.2.last_phase)]

/-- `CcfPersistence.save` (data path): the complete state document —
schema version 1, version tag, timestamp, personality pair, and one
record per accumulator in dictionary order. -/
def CcfPersistence.save (accumulators : List (ℤ × AccRecord))
    (personality : Personality) (ccf_version saved_at : String) : Json :=
  Json.obj [
    ("version", Json.num 1),
    ("ccf_version", Json.str ccf_version),
    ("saved_at", Json.str saved_at),
    ("personality", Json.obj [
      ("curiosity", Json.num personality.curiosity),
      ("recovery", Json.num personality.recovery)]),
    ("contexts", Json.arr (accumulators.map recordJson))]

/-- What `load` finds at the path: no file, a file that fails JSON
parsing, or a parsed JSON document. -/
inductive FileContent where
  | missing
  | unparseable
  | parsed (j : Json)

/-- How `load` can fail: the explicit `CcfLoadError` for a newer schema,
or an uncaught Python exception (`AttributeError`/`TypeError`/`ValueError`
escaping the function). -/
inductive LoadErr where
  | incompatibleSchema
  | uncaught
deriving DecidableEq, Repr

/-- Python `version > CCF_SCHEMA_VERSION` on a JSON value: numbers compare,
bools compare as 0/1, anything else raises `TypeError`. -/
def pyGtOne : Json → Except LoadErr Bool
  | .num q => .ok (decide (1 < q))
  | .bool b => .ok (decide ((1 : ℤ) < (if b then 1 else 0)))
  | _ => .error .uncaught

/-- The personality extraction of `load`:
`state.get("personality", {}).get("curiosity", 0.5)` etc.; a non-dict
personality value raises `AttributeError`, a non-convertible field value
raises out of `float()` — both uncaught. -/
def loadPersonality (kvs : List (String × Json)) : Except LoadErr Personality :=
  match (jlookup kvs "personality").getD (Json.obj []) with
  | .obj pkvs =>
      match pyFloat ((jlookup pkvs "curiosity").getD (Json.num (1/2))),
          pyFloat ((jlookup pkvs "recovery").getD (Json.num (1/2))) with
      | some c, some r => .ok ⟨c, r⟩
      | _, _ => .error .uncaught
  | _ => .error .uncaught

/-- Python `for` over a JSON value: lists yield elements, dicts yield
their keys, strings yield characters; anything else raises `TypeError`. -/
def pyIter : Json → Except LoadErr (List Json)
  | .arr items => .ok items
  | .obj kvs => .ok (kvs.map fun p => Json.str p.1)
  | .str s => .ok (s.data.map fun c => Json.str (String.mk [c]))
  | _ => .error .uncaught

/-- Parse one element of the `contexts` list.  `none` models the
`except (KeyError, ValueError, TypeError): continue` skip: a non-dict
element, a missing `ctx_hash`, or a non-convertible field. -/
def parseRecord : Json → Option (ℤ × AccRecord)
  | .obj kvs =>
      match jlookup kvs "ctx_hash" with
      | none => none
      | some hj =>
        match pyInt hj with
        | none => none
        | some h =>
          match pyFloat ((jlookup kvs "coherence").getD (Json.num 0)),
              pyFloat ((jlookup kvs "earned_floor").getD (Json.num 0)),
              pyInt ((jlookup kvs "interaction_count").getD (Json.num 0)) with
          | some c, some f, some n =>
              some (h, AccRecord.mk c f n
                (pyStr ((jlookup kvs "last_phase").getD (Json.str "ShyObserver"))))
          | _, _, _ => none
  | _ => none

/-- The record loop of `load`: well-formed records are inserted into the
accumulator dict in order, malformed ones are skipped. -/
def loadRecords (elems : List Json) : List (ℤ × AccRecord) :=
  elems.foldl (fun m j =>
    match parseRecord j with
    | some p => aupdate m p.1 p.2
    | none => m) []

/-- `CcfPersistence.load` (data path).  Missing or JSON-unparseable files
yield `(None, None)`; a parsed non-dict raises at `state.get`
(`AttributeError`, uncaught); a numeric version above 1 raises
`CcfLoadError`; then personality and records are extracted. -/
def CcfPersistence.load (file : FileContent) :
    Except LoadErr (Option (List (ℤ × AccRecord) × Personality)) :=
  match file with
  | .missing => .ok none
  | .unparseable => .ok none
  | .parsed state =>
    match state with
    | .obj kvs =>
      match pyGtOne ((jlookup kvs "version").getD (Json.num 1)) with
      | .error e => .error e
      | .ok true => .error .incompatibleSchema
      | .ok false =>
        match loadPersonality kvs with
        | .error e => .error e
        | .ok pers =>
          match pyIter ((jlookup kvs "contexts").getD (Json.arr [])) with
          | .error e => .error e
          | .ok elems => .ok (some (loadRecords elems, pers))
    | _ => .error .uncaught

/-- The effective coherence a restored field computes from a loaded
record (`CoherenceFieldPy.from_dict` rebuilds an `_Accumulator` from the
record's coherence/earned_floor/interaction_count). -/
def AccRecord.effective_coherence (r : AccRecord) (instant : ℚ) : ℚ :=
  (Accumulator.mk r.coherence r.earned_floor r.interaction_count).effective_coherence
    instant

/-- A concrete one-record population used as the C5 witness input. -/
def sampleAccs : List (ℤ × AccRecord) :=
  [(5, AccRecord.mk (1/2 : ℚ) (1/4 : ℚ) 3 "BuildingTrust")]

/-! ## Theorems -/

lemma positive_interaction_inv {a : Accumulator} {c : ℚ}
    (ha : a.Inv) (hc0 : 0 ≤ c) :
    (a.positive_interaction c).Inv ∧
      a.earned_floor ≤ (a.positive_interaction c).earned_floor := by
  obtain ⟨h0, h1, h2⟩ := ha
  have hgain : (0 : ℚ) ≤ c * (12/100 : ℚ) := by positivity
  unfold Accumulator.positive_interaction
  simp only [Accumulator.Inv]
  constructor
  · refine ⟨?_, ?_, ?_⟩
    · exact le_min (le_min (h0.trans (h1.trans h2)) (by linarith))
        (by linarith)
    · exact min_le_left _ _
    · exact min_le_left _ _
  · exact le_min (le_min (h1.trans h2) (by linarith)) (by linarith)

lemma negative_interaction_inv {a : Accumulator} {r : ℚ}
    (ha : a.Inv) (hr1 : r ≤ 1) :
    (a.negative_interaction r).Inv ∧
      a.earned_floor ≤ (a.negative_interaction r).earned_floor := by
  obtain ⟨h0, h1, h2⟩ := ha
  unfold Accumulator.negative_interaction
  simp only [Accumulator.Inv]
  refine ⟨⟨h0, le_max_left _ _, ?_⟩, le_refl _⟩
  have hdecay : (0 : ℚ) ≤ (15/100 : ℚ) * (1 - r) := by nlinarith
  exact max_le (h1.trans h2) (by linarith)

lemma apply_inv {a : Accumulator} {i : Interaction}
    (ha : a.Inv) (hi : i.Valid) :
    (a.apply i).Inv ∧ a.earned_floor ≤ (a.apply i).earned_floor := by
  cases i with
  | positive c => exact positive_interaction_inv ha hi.1
  | negative r => exact negative_interaction_inv ha hi.2

lemma applyAll_inv {a : Accumulator} {s : List Interaction}
    (ha : a.Inv) (hs : ValidSeq s) :
    (a.applyAll s).Inv ∧ a.earned_floor ≤ (a.applyAll s).earned_floor := by
  induction s generalizing a with
  | nil => exact ⟨ha, le_refl _⟩
  | cons i rest ih =>
    have hstep := apply_inv ha (hs i (List.mem_cons_self i rest))
    have hrest : ValidSeq rest := fun j hj => hs j (List.mem_cons_of_mem i hj)
    have := ih hstep.1 hrest
    exact ⟨this.1, hstep.2.trans this.2⟩

/-- **C1.** For every accumulator satisfying `0 ≤ earned_floor ≤ coherence ≤ 1`
and every sequence of positive/negative interactions with parameters in
`[0, 1]`, the invariant `earned_floor ≤ coherence` (and the range bounds)
holds after the sequence, `earned_floor` never decreases, and a single
negative interaction never drives coherence below the earned floor present
when it runs.  Since the statement is quantified over all valid sequences,
it in particular applies to every prefix, i.e. after every call. -/
theorem C1_floor_monotone (a : Accumulator) (s : List Interaction)
    (ha : a.Inv) (hs : ValidSeq s) :
    (a.applyAll s).Inv ∧
      a.earned_floor ≤ (a.applyAll s).earned_floor ∧
      ∀ r : ℚ, a.earned_floor ≤ (a.negative_interaction r).coherence := by
  obtain ⟨h1, h2⟩ := applyAll_inv ha hs
  exact ⟨h1, h2, fun r => le_max_left _ _⟩

theorem C1_floor_monotone_witness :
    (Accumulator.init.Inv ∧ ValidSeq [.positive (1/2 : ℚ), .negative (1/2 : ℚ)]) ∧
      ((Accumulator.init.applyAll [.positive (1/2 : ℚ), .negative (1/2 : ℚ)]).Inv ∧
        Accumulator.init.earned_floor ≤
          (Accumulator.init.applyAll [.positive (1/2 : ℚ), .negative (1/2 : ℚ)]).earned_floor ∧
        ∀ r : ℚ, Accumulator.init.earned_floor ≤
          (Accumulator.init.negative_interaction r).coherence) := by
  have hinv : Accumulator.init.Inv := by
    norm_num [Accumulator.Inv, Accumulator.init]
  have hseq : ValidSeq [.positive (1/2 : ℚ), .negative (1/2 : ℚ)] := by
    simp only [ValidSeq, List.mem_cons, List.not_mem_nil, or_false]
    rintro i (rfl | rfl) <;> exact ⟨by norm_num, by norm_num⟩
  exact ⟨⟨hinv, hseq⟩,
    C1_floor_monotone Accumulator.init [.positive (1/2 : ℚ), .negative (1/2 : ℚ)]
      hinv hseq⟩

/-- **C8.** `positive_interaction` sets the fields exactly by the documented
formulas, and the documented concrete values hold in exact arithmetic:
from a zero accumulator, `positive_interaction (1/2 : ℚ)` yields coherence `(6/100 : ℚ)`
and earned floor `(18/1000 : ℚ)`, and a following `negative_interaction (1/2 : ℚ)` yields
coherence `max (18/1000 : ℚ) ((6/100 : ℚ) - (75/1000 : ℚ)) = (18/1000 : ℚ)`. -/
theorem C8_concrete_values :
    (∀ (a : Accumulator) (c : ℚ),
      (a.positive_interaction c).coherence = min 1 (a.coherence + c * (12/100 : ℚ)) ∧
      (a.positive_interaction c).earned_floor =
        min (min 1 (a.coherence + c * (12/100 : ℚ))) (a.earned_floor + c * (12/100 : ℚ) * (3/10 : ℚ)) ∧
      (a.positive_interaction c).interaction_count = a.interaction_count + 1) ∧
    (Accumulator.init.positive_interaction (1/2 : ℚ)).coherence = (6/100 : ℚ) ∧
    (Accumulator.init.positive_interaction (1/2 : ℚ)).earned_floor = (18/1000 : ℚ) ∧
    ((Accumulator.init.positive_interaction (1/2 : ℚ)).negative_interaction (1/2 : ℚ)).coherence
      = max (18/1000 : ℚ) ((6/100 : ℚ) - (75/1000 : ℚ)) ∧
    ((Accumulator.init.positive_interaction (1/2 : ℚ)).negative_interaction (1/2 : ℚ)).coherence
      = (18/1000 : ℚ) := by
  refine ⟨fun a c => ⟨rfl, rfl, rfl⟩, ?_, ?_, ?_, ?_⟩ <;>
    norm_num [Accumulator.positive_interaction, Accumulator.negative_interaction,
      Accumulator.init, min_def, max_def]

/-- **C3.** The acute overrides dominate every previous phase: coherence at
least 0.55 with instant below 0.30 yields `ProtectiveGuardian`; coherence
below 0.35 with instant below 0.20 yields `StartledRetreat` (the first
override cannot fire there since 0.35 < 0.55); and the two concrete spec
cases hold. -/
theorem C3_acute_overrides (effective_coh instant : ℚ) (prev : SocialPhase)
    (h0 : 0 ≤ instant) (h1 : instant ≤ 1) :
    (effective_coh ≥ (55/100 : ℚ) → instant < (30/100 : ℚ) →
      classify_phase effective_coh instant prev = .ProtectiveGuardian) ∧
    (effective_coh < (35/100 : ℚ) → instant < (20/100 : ℚ) →
      classify_phase effective_coh instant prev = .StartledRetreat) ∧
    classify_phase (75/100 : ℚ) (10/100 : ℚ) .QuietlyBeloved
      = .ProtectiveGuardian ∧
    classify_phase (10/100 : ℚ) (5/100 : ℚ) .ShyObserver = .StartledRetreat := by
  refine ⟨?_, ?_, ?_, ?_⟩
  · intro hc hi
    simp only [classify_phase, if_pos (And.intro hc hi)]
  · intro hc hi
    have hnot : ¬(effective_coh ≥ (55/100 : ℚ) ∧ instant < (30/100 : ℚ)) := by
      rintro ⟨hge, _⟩; linarith
    simp only [classify_phase, if_neg hnot, if_pos (And.intro hc hi)]
  · norm_num [classify_phase]
  · norm_num [classify_phase]

theorem C3_acute_overrides_witness :
    (0 ≤ (1/2 : ℚ) ∧ (1/2 : ℚ) ≤ 1) ∧
      (((60/100 : ℚ) ≥ (55/100 : ℚ) → (1/2 : ℚ) < (30/100 : ℚ) →
        classify_phase (60/100 : ℚ) (1/2 : ℚ) .ShyObserver
          = .ProtectiveGuardian) ∧
      ((60/100 : ℚ) < (35/100 : ℚ) → (1/2 : ℚ) < (20/100 : ℚ) →
        classify_phase (60/100 : ℚ) (1/2 : ℚ) .ShyObserver
          = .StartledRetreat) ∧
      classify_phase (75/100 : ℚ) (10/100 : ℚ) .QuietlyBeloved
        = .ProtectiveGuardian ∧
      classify_phase (10/100 : ℚ) (5/100 : ℚ) .ShyObserver
        = .StartledRetreat) :=
  ⟨⟨by norm_num, by norm_num⟩,
    C3_acute_overrides (60/100 : ℚ) (1/2 : ℚ) .ShyObserver
      (by norm_num) (by norm_num)⟩

/-- **C4 counterexample.** The claim fails as stated: with previous phase
`BuildingTrust`, effective coherence 0.30 (inside the 0.28–0.35 hysteresis
gap) and instant 0 (inside the claimed `[0,1]` range), the startle
override fires and the classifier returns `StartledRetreat`, not
`BuildingTrust`. -/
theorem C4_hysteresis_counterexample :
    classify_phase (30/100 : ℚ) 0 .BuildingTrust = .StartledRetreat ∧
      classify_phase (30/100 : ℚ) 0 .BuildingTrust ≠ .BuildingTrust := by
  have h : classify_phase (30/100 : ℚ) 0 .BuildingTrust = .StartledRetreat := by
    norm_num [classify_phase]
  exact ⟨h, by rw [h]; decide⟩

/-- **C4 (amended).** For previous phase `BuildingTrust`, effective
coherence anywhere in `[0.30, 0.33]` and instant at least the startle
threshold 0.20 (and at most 1), the classifier returns `BuildingTrust`;
consequently no sequence of such ticks ever moves the phase away from
`BuildingTrust`. -/
theorem C4_hysteresis_stability (ticks : List (ℚ × ℚ))
    (h : ∀ t ∈ ticks, (30/100 : ℚ) ≤ t.1 ∧ t.1 ≤ (33/100 : ℚ) ∧
      (20/100 : ℚ) ≤ t.2 ∧ t.2 ≤ 1) :
    classifySeq .BuildingTrust ticks = .BuildingTrust := by
  induction ticks with
  | nil => rfl
  | cons t rest ih =>
    obtain ⟨hc0, hc1, hi0, hi1⟩ := h t (List.mem_cons_self t rest)
    have hstep : classify_phase t.1 t.2 .BuildingTrust = .BuildingTrust := by
      have h1 : ¬(t.1 ≥ (55/100 : ℚ) ∧ t.2 < (30/100 : ℚ)) := by
        rintro ⟨hge, _⟩; linarith
      have h2 : ¬(t.1 < (35/100 : ℚ) ∧ t.2 < (20/100 : ℚ)) := by
        rintro ⟨_, hlt⟩; linarith
      have h3 : ¬(t.1 < (28/100 : ℚ)) := by linarith
      have h4 : ¬(t.1 ≥ (55/100 : ℚ)) := by linarith
      simp only [classify_phase, if_neg h1, if_neg h2, if_neg h3, if_neg h4]
    show classifySeq (classify_phase t.1 t.2 .BuildingTrust) rest = _
    rw [hstep]
    exact ih (fun u hu => h u (List.mem_cons_of_mem t hu))

theorem C4_hysteresis_stability_witness :
    (∀ t ∈ [((30/100 : ℚ), (1/2 : ℚ)), ((33/100 : ℚ), (99/100 : ℚ)),
        ((31/100 : ℚ), (20/100 : ℚ))],
      (30/100 : ℚ) ≤ t.1 ∧ t.1 ≤ (33/100 : ℚ) ∧
        (20/100 : ℚ) ≤ t.2 ∧ t.2 ≤ 1) ∧
    classifySeq .BuildingTrust
      [((30/100 : ℚ), (1/2 : ℚ)), ((33/100 : ℚ), (99/100 : ℚ)),
        ((31/100 : ℚ), (20/100 : ℚ))] = .BuildingTrust := by
  have h : ∀ t ∈ [((30/100 : ℚ), (1/2 : ℚ)), ((33/100 : ℚ), (99/100 : ℚ)),
      ((31/100 : ℚ), (20/100 : ℚ))],
      (30/100 : ℚ) ≤ t.1 ∧ t.1 ≤ (33/100 : ℚ) ∧
        (20/100 : ℚ) ≤ t.2 ∧ t.2 ≤ 1 := by
    simp only [List.mem_cons, List.not_mem_nil, or_false]
    rintro t (rfl | rfl | rfl) <;>
      exact ⟨by norm_num, by norm_num, by norm_num, by norm_num⟩
  exact ⟨h, C4_hysteresis_stability _ h⟩

lemma foldl_flatten (l : List (List ℕ)) (g : ℕ → ℕ → ℕ) :
    ∀ h : ℕ, l.flatten.foldl g h = l.foldl (fun h bs => bs.foldl g h) h := by
  induction l with
  | nil => intro h; rfl
  | cons bs rest ih =>
    intro h
    simp only [List.flatten_cons, List.foldl_append, List.foldl_cons]
    exact ih _

lemma context_hash_eq_spec (k : TextContextKey) :
    k.context_hash = contextHashSpec k := by
  unfold TextContextKey.context_hash contextHashSpec fnv1a
  rw [foldl_flatten, List.foldl_map]

lemma foldl_fnvRound_lt (bs : List ℕ) :
    ∀ h : ℕ, h < 2 ^ 32 → bs.foldl fnvRound h < 2 ^ 32 := by
  induction bs with
  | nil => intro h hh; exact hh
  | cons b rest ih =>
    intro h _
    exact ih _ (Nat.mod_lt _ (by norm_num))

lemma fnv1a_lt (values : List ℕ) : fnv1a values < 2 ^ 32 := by
  unfold fnv1a
  have hgen : ∀ h : ℕ, h < 2 ^ 32 →
      values.foldl (fun h v => (bytesLE4 v).foldl fnvRound h) h < 2 ^ 32 := by
    induction values with
    | nil => intro h hh; exact hh
    | cons v rest ih =>
      intro h hh
      exact ih _ (foldl_fnvRound_lt _ _ hh)
  exact hgen _ (by norm_num)

/-- **C2.** For every valid fingerprint, `context_hash` equals 32-bit FNV-1a
(offset basis 2166136261, prime 16777619) applied byte-by-byte over the
little-endian 4-byte encodings of the five fields in declaration order, is
always below `2^32` (hence in `[0, 2^32 - 1]`), and is a pure function of
the five fields: any two fingerprints with equal field tuples hash equal. -/
theorem C2_hash_deterministic (k : TextContextKey) (hk : k.ValidKey) :
    k.context_hash = contextHashSpec k ∧
    k.context_hash < 2 ^ 32 ∧
    ∀ k' : TextContextKey,
      k.topic_domain = k'.topic_domain →
      k.conversation_depth = k'.conversation_depth →
      k.emotional_register = k'.emotional_register →
      k.time_of_day = k'.time_of_day →
      k.session_phase = k'.session_phase →
      k.context_hash = k'.context_hash := by
  refine ⟨context_hash_eq_spec k, fnv1a_lt _, ?_⟩
  intro k' h1 h2 h3 h4 h5
  obtain ⟨t, d, e, o, s⟩ := k
  obtain ⟨t', d', e', o', s'⟩ := k'
  simp only at h1 h2 h3 h4 h5
  subst h1; subst h2; subst h3; subst h4; subst h5
  rfl

theorem C2_hash_deterministic_witness :
    (TextContextKey.mk 0 1 2 3 2).ValidKey ∧
      ((TextContextKey.mk 0 1 2 3 2).context_hash
          = contextHashSpec (TextContextKey.mk 0 1 2 3 2) ∧
        (TextContextKey.mk 0 1 2 3 2).context_hash < 2 ^ 32 ∧
        ∀ k' : TextContextKey,
          (TextContextKey.mk 0 1 2 3 2).topic_domain = k'.topic_domain →
          (TextContextKey.mk 0 1 2 3 2).conversation_depth = k'.conversation_depth →
          (TextContextKey.mk 0 1 2 3 2).emotional_register = k'.emotional_register →
          (TextContextKey.mk 0 1 2 3 2).time_of_day = k'.time_of_day →
          (TextContextKey.mk 0 1 2 3 2).session_phase = k'.session_phase →
          (TextContextKey.mk 0 1 2 3 2).context_hash = k'.context_hash) :=
  ⟨by decide, C2_hash_deterministic (TextContextKey.mk 0 1 2 3 2) (by decide)⟩

/-- **C9 (code bug).** When the caller does not supply `depth`, `from_text`
uses the declared default — the string `"moderate"` — so the resolved
conversation depth is `1` for every turn count; the turn-count breakpoint
function gives `0` for `turn_count = 0`, so the documented inference from
`turn_count` ("If not provided, inferred from turn_count") never happens.
The turn-count branch is unreachable for a defaulted call. -/
theorem C9_default_depth_bug :
    resolveDepth defaultDepthArg 0 = some 1 ∧
    ConversationDepth.from_turn_count 0 = 0 ∧
    (∀ tc : ℤ, resolveDepth defaultDepthArg tc = some 1) ∧
    resolveDepth .otherArg 0 = some 0 := by
  refine ⟨rfl, by decide, fun tc => rfl, by decide⟩

lemma alookup_aupdate {α : Type} (m : List (ℤ × α)) (k : ℤ) (v : α) :
    alookup (aupdate m k v) k = some v := by
  induction m with
  | nil => simp [aupdate, alookup]
  | cons p rest ih =>
    obtain ⟨k0, v0⟩ := p
    by_cases hk : k0 = k
    · simp [aupdate, hk, alookup]
    · simp [aupdate, hk, alookup, ih]

/-- **C10.** The three field-level reads leave the accumulator map (indeed
the whole field state) unchanged; for an unseen context hash they return
`min(instant, 0.0)`, `0.0` and `0`, so in particular the effective
coherence of an unseen context is exactly `0.0` for `instant ∈ [0, 1]`;
and the interaction recorders do create an accumulator for an unseen
hash. -/
theorem C10_reads_no_insert (f : CoherenceFieldPy) (h : ℤ) (instant : ℚ)
    (hi0 : 0 ≤ instant) (hi1 : instant ≤ 1) :
    ((f.effective_coherence h instant).2 = f ∧
      (f.raw_coherence h).2 = f ∧
      (f.interaction_count h).2 = f) ∧
    (alookup f.accumulators h = none →
      (f.effective_coherence h instant).1 = min instant 0 ∧
      (f.effective_coherence h instant).1 = 0 ∧
      (f.raw_coherence h).1 = 0 ∧
      (f.interaction_count h).1 = 0) ∧
    (alookup (f.positive_interaction h).accumulators h).isSome = true ∧
    (alookup (f.negative_interaction h).accumulators h).isSome = true := by
  refine ⟨⟨?_, ?_, ?_⟩, ?_, ?_, ?_⟩
  · unfold CoherenceFieldPy.effective_coherence
    cases alookup f.accumulators h <;> rfl
  · unfold CoherenceFieldPy.raw_coherence
    cases alookup f.accumulators h <;> rfl
  · unfold CoherenceFieldPy.interaction_count
    cases alookup f.accumulators h <;> rfl
  · intro hu
    have hmin : min instant 0 = 0 := min_eq_right hi0
    have he : (f.effective_coherence h instant).1 = min instant 0 := by
      norm_num [CoherenceFieldPy.effective_coherence, hu]
    refine ⟨he, by rw [he, hmin], ?_, ?_⟩
    · simp [CoherenceFieldPy.raw_coherence, hu]
    · simp [CoherenceFieldPy.interaction_count, hu]
  · unfold CoherenceFieldPy.positive_interaction
    simp [alookup_aupdate]
  · unfold CoherenceFieldPy.negative_interaction
    simp [alookup_aupdate]

theorem C10_reads_no_insert_witness :
    ((0 : ℚ) ≤ (1/2 : ℚ) ∧ (1/2 : ℚ) ≤ 1) ∧
      (((sampleField.effective_coherence 5 (1/2 : ℚ)).2 = sampleField ∧
        (sampleField.raw_coherence 5).2 = sampleField ∧
        (sampleField.interaction_count 5).2 = sampleField) ∧
      (alookup sampleField.accumulators 5 = none →
        (sampleField.effective_coherence 5 (1/2 : ℚ)).1 = min (1/2 : ℚ) 0 ∧
        (sampleField.effective_coherence 5 (1/2 : ℚ)).1 = 0 ∧
        (sampleField.raw_coherence 5).1 = 0 ∧
        (sampleField.interaction_count 5).1 = 0) ∧
      (alookup (sampleField.positive_interaction 5).accumulators 5).isSome = true ∧
      (alookup (sampleField.negative_interaction 5).accumulators 5).isSome = true) :=
  ⟨⟨by norm_num, by norm_num⟩,
    C10_reads_no_insert sampleField 5 (1/2 : ℚ) (by norm_num) (by norm_num)⟩

/-- **C7.** If `save` fails before its rename completes (the temp-file
write or the rename itself raises), the destination file is byte-for-byte
unchanged and no temporary file remains; on success the destination holds
exactly the new complete snapshot.  The destination is therefore only ever
the previous snapshot or the new one. -/
theorem C7_atomic_failure_safety (fs : FSState) (content : String)
    (fail : SaveFail) (hf : fail ≠ .noFail) :
    (saveRun fs content fail).1.dest = fs.dest ∧
      (saveRun fs content fail).1.tmp = none ∧
      (saveRun fs content .noFail).1.dest = some content ∧
      (saveRun fs content .noFail).1.tmp = none := by
  cases fail with
  | noFail => exact absurd rfl hf
  | atWrite => exact ⟨rfl, rfl, rfl, rfl⟩
  | atRename => exact ⟨rfl, rfl, rfl, rfl⟩

theorem C7_atomic_failure_safety_witness :
    (SaveFail.atRename ≠ SaveFail.noFail) ∧
      ((saveRun (FSState.mk (some "old") none) "new" .atRename).1.dest
          = (FSState.mk (some "old") none).dest ∧
        (saveRun (FSState.mk (some "old") none) "new" .atRename).1.tmp = none ∧
        (saveRun (FSState.mk (some "old") none) "new" .noFail).1.dest
          = some "new" ∧
        (saveRun (FSState.mk (some "old") none) "new" .noFail).1.tmp = none) :=
  ⟨by decide,
    C7_atomic_failure_safety (FSState.mk (some "old") none) "new" .atRename
      (by decide)⟩

lemma pyTrunc_intCast (n : ℤ) : pyTrunc (n : ℚ) = n := by
  unfold pyTrunc
  by_cases hn : (n : ℚ) < 0
  · simp [hn]
  · simp [hn]

lemma parseRecord_recordJson (p : ℤ × AccRecord) :
    parseRecord (recordJson p) = some p := by
  obtain ⟨h, c, f, n, ph⟩ := p
  simp [recordJson, parseRecord, jlookup, pyInt, pyFloat, pyStr,
    pyTrunc_intCast]

lemma aupdate_fresh {α : Type} (m : List (ℤ × α)) (k : ℤ) (v : α)
    (hk : k ∉ m.map Prod.fst) : aupdate m k v = m ++ [(k, v)] := by
  induction m with
  | nil => rfl
  | cons p rest ih =>
    obtain ⟨k0, v0⟩ := p
    simp only [List.map_cons, List.mem_cons] at hk
    push_neg at hk
    have hne : k0 ≠ k := fun he => hk.1 he.symm
    simp [aupdate, hne, ih hk.2]

lemma loadRecords_save (accs : List (ℤ × AccRecord))
    (hnodup : (accs.map Prod.fst).Nodup) :
    loadRecords (accs.map recordJson) = accs := by
  unfold loadRecords
  suffices hgen : ∀ (l m : List (ℤ × AccRecord)),
      (l.map Prod.fst).Nodup → (∀ p ∈ l, p.1 ∉ m.map Prod.fst) →
      (l.map recordJson).foldl (fun m j =>
        match parseRecord j with
        | some p => aupdate m p.1 p.2
        | none => m) m = m ++ l by
    simpa using hgen accs [] hnodup (by simp)
  intro l
  induction l with
  | nil => intro m _ _; simp
  | cons p rest ih =>
    intro m hnd hdisj
    simp only [List.map_cons, List.foldl_cons, parseRecord_recordJson]
    rw [aupdate_fresh m p.1 p.2 (hdisj p (List.mem_cons_self p rest))]
    simp only [List.map_cons, List.nodup_cons] at hnd
    have hdisj2 : ∀ q ∈ rest, q.1 ∉ (m ++ [(p.1, p.2)]).map Prod.fst := by
      intro q hq
      simp only [List.map_append, List.mem_append]
      rintro (h1 | h2)
      · exact hdisj q (List.mem_cons_of_mem p hq) h1
      · simp only [List.map_cons, List.map_nil, List.mem_singleton] at h2
        exact hnd.1 (h2 ▸ List.mem_map_of_mem Prod.fst hq)
    rw [ih (m ++ [(p.1, p.2)]) hnd.2 hdisj2]
    simp

/-- **C5.** Loading what `save` wrote reproduces the population exactly —
the same context hashes, with equal coherence, earned floor and
interaction count for every record — and the same personality pair;
consequently the effective coherence computed from a loaded record is
within 0.001 of the original for every instant (here: identical). -/
theorem C5_persistence_roundtrip (accs : List (ℤ × AccRecord))
    (pers : Personality) (ver ts : String)
    (hnodup : (accs.map Prod.fst).Nodup) :
    CcfPersistence.load (.parsed (CcfPersistence.save accs pers ver ts))
      = .ok (some (accs, pers)) ∧
    ∀ (h : ℤ) (r rloaded : AccRecord), alookup accs h = some r →
      alookup accs h = some rloaded →
      ∀ instant : ℚ,
        |rloaded.effective_coherence instant - r.effective_coherence instant|
          ≤ 1/1000 := by
  constructor
  · obtain ⟨c, r⟩ := pers
    simp +decide [CcfPersistence.load, CcfPersistence.save, jlookup, pyGtOne,
      loadPersonality, pyIter, pyFloat, loadRecords_save accs hnodup]
  · intro h r rl hr hrl instant
    rw [hr] at hrl
    obtain rfl := Option.some.inj hrl
    norm_num

theorem C5_persistence_roundtrip_witness :
    (sampleAccs.map Prod.fst).Nodup ∧
      (CcfPersistence.load
          (.parsed (CcfPersistence.save sampleAccs ⟨(1/2 : ℚ), (1/2 : ℚ)⟩
            "0.1.4" "2026-01-01T00:00:00"))
        = .ok (some (sampleAccs, ⟨(1/2 : ℚ), (1/2 : ℚ)⟩)) ∧
      ∀ (h : ℤ) (r rloaded : AccRecord), alookup sampleAccs h = some r →
        alookup sampleAccs h = some rloaded →
        ∀ instant : ℚ,
          |rloaded.effective_coherence instant - r.effective_coherence instant|
            ≤ 1/1000) :=
  ⟨by simp [sampleAccs],
    C5_persistence_roundtrip sampleAccs ⟨(1/2 : ℚ), (1/2 : ℚ)⟩
      "0.1.4" "2026-01-01T00:00:00" (by simp [sampleAccs])⟩

/-- **C6 counterexample.** A file whose content is valid JSON but not a
JSON object — here the empty array — is malformed as a snapshot, yet
`load` does not return `(None, None)`: `state.get("version", 1)` raises an
uncaught `AttributeError` (only `json.JSONDecodeError`/`OSError` are
caught). -/
theorem C6_load_counterexample :
    CcfPersistence.load (.parsed (Json.arr [])) = .error .uncaught ∧
      CcfPersistence.load (.parsed (Json.arr [])) ≠ .ok none := by
  exact ⟨rfl, by simp [CcfPersistence.load]⟩

lemma loadPersonality_cases (kvs : List (String × Json)) :
    (∃ p, loadPersonality kvs = .ok p) ∨
      loadPersonality kvs = .error .uncaught := by
  unfold loadPersonality
  split
  · split
    · exact Or.inl ⟨_, rfl⟩
    · exact Or.inr rfl
  · exact Or.inr rfl

lemma pyIter_cases (j : Json) :
    (∃ l, pyIter j = .ok l) ∨ pyIter j = .error .uncaught := by
  cases j <;> first | exact Or.inl ⟨_, rfl⟩ | exact Or.inr rfl

/-- **C6 (amended).** `load` returns `(None, None)` without raising when
the file is missing, and when its content fails JSON parsing — but not for
every content malformed as a snapshot (see the counterexample: a
non-object document raises).  For an object document with a numeric
`version` field, `CcfLoadError` (`IncompatibleSchema`) is raised exactly
when that version exceeds the supported schema version 1; with no
`version` field the default 1 applies and `CcfLoadError` is never raised.
A record in the contexts list that is missing `ctx_hash` (its only
required sub-field) or is otherwise non-convertible is silently skipped,
and skipping it leaves the records loaded from the remaining elements
unchanged, while every well-formed saved record loads back exactly. -/
theorem C6_load_error_handling (kvs : List (String × Json)) (q : ℚ)
    (hv : jlookup kvs "version" = some (.num q)) :
    CcfPersistence.load .missing = .ok none ∧
    CcfPersistence.load .unparseable = .ok none ∧
    (CcfPersistence.load (.parsed (.obj kvs)) = .error .incompatibleSchema
      ↔ 1 < q) ∧
    (∀ kvs2 : List (String × Json), jlookup kvs2 "version" = none →
      CcfPersistence.load (.parsed (.obj kvs2)) ≠ .error .incompatibleSchema) ∧
    (∀ rkvs : List (String × Json), jlookup rkvs "ctx_hash" = none →
      parseRecord (.obj rkvs) = none) ∧
    (∀ (bad : Json) (elems : List Json), parseRecord bad = none →
      loadRecords (bad :: elems) = loadRecords elems) ∧
    (∀ p : ℤ × AccRecord, parseRecord (recordJson p) = some p) := by
  have hbody : ∀ kvs2 : List (String × Json),
      (match loadPersonality kvs2 with
        | Except.error e => Except.error e
        | Except.ok pers =>
          match pyIter ((jlookup kvs2 "contexts").getD (Json.arr [])) with
          | Except.error e => Except.error e
          | Except.ok elems => Except.ok (some (loadRecords elems, pers)))
        ≠ (Except.error LoadErr.incompatibleSchema :
            Except LoadErr (Option (List (ℤ × AccRecord) × Personality))) := by
    intro kvs2
    rcases loadPersonality_cases kvs2 with ⟨p, hp⟩ | hp <;> rw [hp]
    · rcases pyIter_cases ((jlookup kvs2 "contexts").getD (Json.arr []))
        with ⟨l, hl⟩ | hl <;> rw [hl] <;> simp
    · simp
  refine ⟨rfl, rfl, ?_, ?_, ?_, ?_, parseRecord_recordJson⟩
  · show (match pyGtOne ((jlookup kvs "version").getD (Json.num 1)) with
      | Except.error e => Except.error e
      | Except.ok true => Except.error LoadErr.incompatibleSchema
      | Except.ok false =>
        match loadPersonality kvs with
        | Except.error e => Except.error e
        | Except.ok pers =>
          match pyIter ((jlookup kvs "contexts").getD (Json.arr [])) with
          | Except.error e => Except.error e
          | Except.ok elems => Except.ok (some (loadRecords elems, pers)))
      = Except.error LoadErr.incompatibleSchema ↔ 1 < q
    rw [hv]
    simp only [Option.getD, pyGtOne]
    by_cases h1 : 1 < q
    · simp [h1]
    · rw [decide_eq_false h1]
      simpa [h1] using hbody kvs
  · intro kvs2 hv2
    show (match pyGtOne ((jlookup kvs2 "version").getD (Json.num 1)) with
      | Except.error e => Except.error e
      | Except.ok true => Except.error LoadErr.incompatibleSchema
      | Except.ok false =>
        match loadPersonality kvs2 with
        | Except.error e => Except.error e
        | Except.ok pers =>
          match pyIter ((jlookup kvs2 "contexts").getD (Json.arr [])) with
          | Except.error e => Except.error e
          | Except.ok elems => Except.ok (some (loadRecords elems, pers)))
      ≠ Except.error LoadErr.incompatibleSchema
    rw [hv2]
    simp only [Option.getD, pyGtOne]
    have hd : decide ((1 : ℚ) < 1) = false := by norm_num
    rw [hd]
    exact hbody kvs2
  · intro rkvs hr
    simp only [parseRecord]
    rw [hr]
  · intro bad elems hbad
    unfold loadRecords
    simp [hbad]

theorem C6_load_error_handling_witness :
    jlookup [("version", Json.num 2)] "version" = some (Json.num 2) ∧
      (CcfPersistence.load .missing = .ok none ∧
      CcfPersistence.load .unparseable = .ok none ∧
      (CcfPersistence.load (.parsed (.obj [("version", Json.num 2)]))
          = .error .incompatibleSchema ↔ 1 < (2 : ℚ)) ∧
      (∀ kvs2 : List (String × Json), jlookup kvs2 "version" = none →
        CcfPersistence.load (.parsed (.obj kvs2))
          ≠ .error .incompatibleSchema) ∧
      (∀ rkvs : List (String × Json), jlookup rkvs "ctx_hash" = none →
        parseRecord (.obj rkvs) = none) ∧
      (∀ (bad : Json) (elems : List Json), parseRecord bad = none →
        loadRecords (bad :: elems) = loadRecords elems) ∧
      (∀ p : ℤ × AccRecord, parseRecord (recordJson p) = some p)) :=
  ⟨rfl, C6_load_error_handling [("version", Json.num 2)] 2 rfl⟩

